import Mathlib

/-!
Shallow embedding of the task abstraction in folly/coro/Task.h.

The embedding models the persistent per-coroutine state (`TaskPromiseBase`
plus the result slot of `TaskPromiseCrtpBase`), the terminal-point dispatch
performed by `TaskPromiseBase::FinalAwaiter::await_suspend`, the cooperative
cancellation safe point `do_safe_point`, the token-override policy of
`setCancelToken`, the executor/token inheritance applied by
`TaskPromiseBase::await_transform` together with `co_viaIfAsync` and
`co_withCancellation`, the move-only handle types `Task` and
`TaskWithExecutor` with their launch entry points, and the debug-build
executor checks in `TaskWithExecutor::Awaiter::await_suspend`.

Machine pointers (coroutine handles, executors, cancellation-state objects,
request contexts, async-stack frames) are modelled as identifiers of type
Nat; a shared underlying object is the same identifier.  Fallible or
external state (has cancellation been requested on source i) is an explicit
environment of type Nat to Bool.
-/

namespace Folly

/-- Exceptions stored in a result slot: `OperationCancelled` (produced by
`co_cancelled`) or an ordinary error distinguished by a code. -/
inductive Err where
  | cancelled
  | failure (n : Nat)
deriving DecidableEq

/-- The value-or-error-or-empty result container `folly::Try`. -/
inductive Try (α : Type) where
  | empty
  | value (v : α)
  | error (e : Err)
deriving DecidableEq

/-- A `folly::CancellationToken`: either the empty (default-constructed)
token, or a reference to a shared cancellation state with a given identity.
Copies of a token share the identifier, so token equality is identity of the
underlying cancellation state. -/
abbrev CancellationToken := Option Nat

/-- External cancellation environment: which cancellation-state identities
currently have cancellation requested. -/
abbrev CancelEnv := Nat → Bool

/-- `CancellationToken::isCancellationRequested`: false for the empty token,
otherwise the state of the referenced cancellation source. -/
def isCancellationRequested (env : CancelEnv) : CancellationToken → Bool
  | none => false
  | some i => env i

/-- The persistent state of one task coroutine: the fields of
`detail::TaskPromiseBase` together with the `result_` slot of
`detail::TaskPromiseCrtpBase`.  `continuation_` is unset until the task is
awaited or launched; `executor_` is unset until the task is bound;
`scopeExit_` is the optional attached finalizer coroutine. -/
structure PromiseState where
  continuation : Option Nat := none
  frameId : Nat := 0
  executor : Option Nat := none
  cancelToken : CancellationToken := none
  scopeExit : Option Nat := none
  hasCancelTokenOverride : Bool := false
  result : Try Nat := Try.empty
deriving DecidableEq

/-- `TaskPromiseBase::setCancelToken`: stores the token and raises the
override flag only when no override happened before; otherwise leaves the
state unchanged and signals nothing. -/
def setCancelToken (p : PromiseState) (tok : CancellationToken) : PromiseState :=
  if !p.hasCancelTokenOverride then
    { p with cancelToken := tok, hasCancelTokenOverride := true }
  else
    p

/-- The context transferred to an attached scope-exit (finalizer) coroutine
by `ScopeExitTaskPromise::setContext`: the saved continuation, the pointer
to the finished task's async-stack frame, the bound executor, and the error
of the primary result when it holds one. -/
structure ScopeExitContext where
  continuation : Option Nat
  framePtr : Nat
  executor : Option Nat
  error : Option Err
deriving DecidableEq

/-- Where `FinalAwaiter::await_suspend` transfers control: to the attached
scope-exit coroutine (with its context set), to the continuation through its
error-handling entry point, or to the continuation's plain handle. -/
inductive FinalDispatch where
  | toScopeExit (handle : Nat) (ctx : ScopeExitContext)
  | toErrorHandle (continuation : Option Nat) (e : Err)
  | toContinuation (continuation : Option Nat)
deriving DecidableEq

/-- `Try::hasException` restricted to erroneous results. -/
def exceptionOf : Try Nat → Option Err
  | Try.error e => some e
  | _ => none

/-- `TaskPromiseBase::FinalAwaiter::await_suspend`: when a scope-exit task
is attached, set its context (continuation, async frame, executor, the
error if the result holds one) and symmetrically transfer to it without
popping the async-stack frame; otherwise pop the callee frame and transfer
to the continuation's error-handling handle when the result holds an error,
else to its plain handle.  The Bool records whether
`popAsyncStackFrameCallee` ran in this dispatch. -/
def finalAwaiterSuspend (p : PromiseState) : FinalDispatch × Bool :=
  match p.scopeExit with
  | some se =>
      (FinalDispatch.toScopeExit se
        ⟨p.continuation, p.frameId, p.executor, exceptionOf p.result⟩, false)
  | none =>
      match p.result with
      | Try.error e => (FinalDispatch.toErrorHandle p.continuation e, true)
      | _ => (FinalDispatch.toContinuation p.continuation, true)

/-- Outcome of awaiting `co_safe_point`: either the promise transitions to
its final suspend with the cancelled error emplaced in the result slot, or
the await is immediately ready and nothing changes. -/
inductive SafePointStep where
  | finalSuspend (p : PromiseState)
  | ready
deriving DecidableEq

/-- `TaskPromiseBase::do_safe_point`: when cancellation has been requested
on the promise's token, emplace the `OperationCancelled` error via
`yield_value(co_cancelled)` and proceed to the final awaiter; otherwise
return a ready awaitable. -/
def do_safe_point (env : CancelEnv) (p : PromiseState) : SafePointStep :=
  if isCancellationRequested env p.cancelToken then
    SafePointStep.finalSuspend { p with result := Try.error Err.cancelled }
  else
    SafePointStep.ready

/-- The body of one task coroutine, in the fragment the claims exercise:
return a value (`co_return v`), raise an error (a thrown exception or
`co_yield co_error`), await `co_safe_point`, install a new ambient
`RequestContext` (what a body can do before suspending), await a child
`Task` (which then inherits executor and token through `await_transform`),
or await a foreign awaitable that completes with value v on some other
executor and whose resumption `co_viaIfAsync` routes back through the
task's own executor. -/
inductive TaskBody where
  | ret (v : Nat)
  | throwE (e : Err)
  | safePoint (rest : TaskBody)
  | setReqCtx (c : Nat) (rest : TaskBody)
  | awaitTask (child : TaskBody) (rest : Nat → TaskBody)
  | awaitForeign (completesOn : Nat) (v : Nat) (rest : Nat → TaskBody)

/-- Observable outcome of running a task body to its terminal point: the
terminal result, the executor on which the final symmetric transfer to the
continuation happens, and the ambient request context at that moment. -/
structure RunOut where
  result : Try Nat
  exec : Nat
  ctx : Nat
deriving DecidableEq

/-- Execution of a task body bound to executor `exec` with cancellation
token `tok`, currently running on executor `cur` with ambient request
context `ctx`.  A safe point consults the token (`do_safe_point`); awaiting
a child task runs the child with the parent's executor and token
(`await_transform` wraps every awaited operand in
`co_viaIfAsync(executor_, co_withCancellation(cancelToken_, op))`), and an
error result of a child rethrows in the parent, reaching the parent's
result slot through `unhandled_exception`; a foreign awaitable may complete
anywhere, but `co_viaIfAsync` reschedules the resumption onto the task's
own executor.  Modelled from the spec: the rescheduling behaviour of
`co_viaIfAsync` for non-Task awaitables lives in ViaIfAsync.h, which is not
part of the sources; it is taken from the spec's statement that every
co_await resumes the coroutine on the parent's executor. -/
def runBody (env : CancelEnv) (exec : Nat) (tok : CancellationToken) :
    TaskBody → Nat → Nat → RunOut
  | TaskBody.ret v, cur, ctx => ⟨Try.value v, cur, ctx⟩
  | TaskBody.throwE e, cur, ctx => ⟨Try.error e, cur, ctx⟩
  | TaskBody.safePoint rest, cur, ctx =>
      if isCancellationRequested env tok then ⟨Try.error Err.cancelled, cur, ctx⟩
      else runBody env exec tok rest cur ctx
  | TaskBody.setReqCtx c rest, cur, _ctx => runBody env exec tok rest cur c
  | TaskBody.awaitTask child rest, cur, ctx =>
      let out := runBody env exec tok child cur ctx
      match out.result with
      | Try.value v => runBody env exec tok (rest v) out.exec out.ctx
      | Try.error e => ⟨Try.error e, out.exec, out.ctx⟩
      | Try.empty => ⟨Try.empty, out.exec, out.ctx⟩
  | TaskBody.awaitForeign _completesOn v rest, _cur, ctx =>
      runBody env exec tok (rest v) exec ctx

/-- An allocated coroutine frame: its body and its promise state. -/
structure TaskFrame where
  body : TaskBody
  promise : PromiseState

/-- The move-only unbound handle `folly::coro::Task`: it owns at most one
coroutine frame. -/
structure Task where
  coro : Option TaskFrame

/-- The move-only bound handle `folly::coro::TaskWithExecutor`. -/
structure TaskWithExecutor where
  coro : Option TaskFrame

/-- The move constructor `Task(Task&& t)`: the new handle takes the frame,
`std::exchange` leaves the source empty.  Returns (new handle, source after
the move). -/
def Task.moveFrom (t : Task) : Task × Task :=
  (⟨t.coro⟩, ⟨none⟩)

/-- The move constructor `TaskWithExecutor(TaskWithExecutor&& t)`. -/
def TaskWithExecutor.moveFrom (t : TaskWithExecutor) : TaskWithExecutor × TaskWithExecutor :=
  (⟨t.coro⟩, ⟨none⟩)

/-- Observable effects of destroying a handle. -/
inductive DestroyEvent where
  | frameDestroyed
  | bodyRan
  | continuationResumed
  | finalizerResumed
deriving DecidableEq

/-- The destructor of `Task`: when a frame is owned, `coro_.destroy()`
releases it; a coroutine suspended at its initial suspend point is
destroyed without resuming, so neither the body nor any continuation nor
any attached finalizer runs.  An empty handle does nothing. -/
def Task.destruct (t : Task) : List DestroyEvent :=
  match t.coro with
  | some _ => [DestroyEvent.frameDestroyed]
  | none => []

/-- The destructor of `TaskWithExecutor`, identical to the one of `Task`. -/
def TaskWithExecutor.destruct (t : TaskWithExecutor) : List DestroyEvent :=
  match t.coro with
  | some _ => [DestroyEvent.frameDestroyed]
  | none => []

/-- `Task::scheduleOn` (the target of `co_withExecutor`): sets the executor
on the promise and transfers the frame into a `TaskWithExecutor`, leaving
the source task empty.  Returns (bound handle, source after the call). -/
def Task.scheduleOn (t : Task) (e : Nat) : TaskWithExecutor × Task :=
  match t.coro with
  | some f =>
      (⟨some { f with promise := { f.promise with executor := some e } }⟩, ⟨none⟩)
  | none => (⟨none⟩, ⟨none⟩)

/-- `TaskWithExecutor::unwrap`: moves the executor out of the promise
(leaving the promise's executor empty, as moving from a KeepAlive does) and
transfers the frame back into an unbound `Task`, leaving the bound handle
empty.  Returns ((task, executor), bound handle after the call). -/
def TaskWithExecutor.unwrap (b : TaskWithExecutor) :
    (Task × Option Nat) × TaskWithExecutor :=
  match b.coro with
  | some f =>
      ((⟨some { f with promise := { f.promise with executor := none } }⟩,
        f.promise.executor), ⟨none⟩)
  | none => ((⟨none⟩, none), ⟨none⟩)

/-- `co_withCancellation(CancellationToken, Task&&)`: forwards to
`setCancelToken` on the promise and returns the same task.  -/
def co_withCancellation_Task (tok : CancellationToken) (t : Task) : Task :=
  match t.coro with
  | some f => ⟨some { f with promise := setCancelToken f.promise tok }⟩
  | none => ⟨none⟩

/-- `co_viaIfAsync(Executor::KeepAlive, Task&&)`: the child task inherits
the awaiting task's executor via `setExecutor` (unconditional overwrite),
and the frame moves into the returned awaiter. -/
def co_viaIfAsync_Task (executor : Option Nat) (t : Task) : Task :=
  match t.coro with
  | some f => ⟨some { f with promise := { f.promise with executor := executor } }⟩
  | none => ⟨none⟩

/-- `TaskPromiseBase::await_transform` applied to a child `Task` awaited
from a running task with promise `parent`: the operand is wrapped as
`co_withAsyncStack(co_viaIfAsync(executor_.get_alias(),
co_withCancellation(cancelToken_, child)))`, so the child first receives
the parent's token (first write wins) and then the parent's executor
handle. -/
def taskAwaitTransform (parent : PromiseState) (child : Task) : Task :=
  co_viaIfAsync_Task parent.executor (co_withCancellation_Task parent.cancelToken child)

/-- `TaskWithExecutor::startImpl` followed by the detached coroutine
`startImpl(task, cb)`: the cancellation token is set on the promise (first
write wins), the task is awaited with `co_awaitTry`, whose awaiter
schedules the body onto the bound executor, and the callback is invoked
with the terminal `Try` exactly when the awaited task completes.  The
returned list is the sequence of callback invocations. -/
def startImplModel (env : CancelEnv) (t : TaskWithExecutor)
    (cancelToken : CancellationToken) (ctx : Nat) : List (Try Nat) :=
  match t.coro with
  | none => []
  | some f =>
      let p := setCancelToken f.promise cancelToken
      match p.executor with
      | none => []
      | some e =>
          let out := runBody env e p.cancelToken f.body e ctx
          [out.result]

/-- `TaskWithExecutor::startInlineImpl`: sets the cancellation token, saves
the ambient request context in a `RequestContextScopeGuard`, starts the
task inline on the current thread (assumed to be on the bound executor),
and restores the saved context when the call returns.  Returns the callback
invocations and the caller's request context after the call. -/
def startInlineImplModel (env : CancelEnv) (t : TaskWithExecutor)
    (cancelToken : CancellationToken) (ctx : Nat) : List (Try Nat) × Nat :=
  match t.coro with
  | none => ([], ctx)
  | some f =>
      let p := setCancelToken f.promise cancelToken
      match p.executor with
      | none => ([], ctx)
      | some e =>
          let saved := ctx
          let out := runBody env e p.cancelToken f.body e ctx
          ([out.result], saved)

/-- The dynamic class of the executor a task is bound to, as probed by the
dynamic_cast checks in `TaskWithExecutor::Awaiter::await_suspend`:
`folly::InlineExecutor`, `folly::QueuedImmediateExecutor`, another subclass
of `InlineLikeExecutor`, a `DefaultKeepAliveExecutor::WeakRefExecutor`, or
an ordinary executor. -/
inductive ExecutorClass where
  | inlineExecutor
  | queuedImmediateExecutor
  | otherInlineLike
  | weakRef
  | normal
deriving DecidableEq

/-- Whether the executor class is a subclass of `InlineLikeExecutor`
(an executor that only ever runs work on the submitting thread). -/
def isInlineLike : ExecutorClass → Bool
  | ExecutorClass.inlineExecutor => true
  | ExecutorClass.queuedImmediateExecutor => true
  | ExecutorClass.otherInlineLike => true
  | _ => false

/-- How a defect found by the executor checks is reported. -/
inductive DefectReport where
  | crash
  | logged
  | silent
deriving DecidableEq

/-- The executor checks at the top of
`TaskWithExecutor::Awaiter::await_suspend`.  `debug` is `folly::kIsDebug`;
`dcheckFatal` is whether the build makes DCHECK failures abort (a strict
build).  The two DCHECKs abort on the concrete `InlineExecutor` and
`QueuedImmediateExecutor` classes when DCHECKs are fatal; otherwise, in
debug builds, an `InlineLikeExecutor` or a weak-ref executor is reported
with FB_LOG_ONCE(ERROR) and execution continues. -/
def awaiterExecutorCheck (debug dcheckFatal : Bool) (k : ExecutorClass) : DefectReport :=
  if dcheckFatal &&
      (k == ExecutorClass.inlineExecutor || k == ExecutorClass.queuedImmediateExecutor) then
    DefectReport.crash
  else if debug && isInlineLike k then
    DefectReport.logged
  else if debug && (k == ExecutorClass.weakRef) then
    DefectReport.logged
  else
    DefectReport.silent

/-- Setting the token never touches the executor field. -/
theorem setCancelToken_executor (p : PromiseState) (tok : CancellationToken) :
    (setCancelToken p tok).executor = p.executor := by
  unfold setCancelToken
  split <;> rfl

/-- A task body bound to executor e and entered on e always hands control
back to its continuation on e: the safe-point and return cases stay on the
current executor, and every await is routed back to e by the co_viaIfAsync
wrapping applied in await_transform. -/
theorem runBody_exec_eq (env : CancelEnv) (e : Nat) (tok : CancellationToken) :
    ∀ (b : TaskBody) (ctx : Nat), (runBody env e tok b e ctx).exec = e := by
  intro b
  induction b with
  | ret v => intro ctx; rfl
  | throwE err => intro ctx; rfl
  | safePoint rest ih =>
      intro ctx
      by_cases h : isCancellationRequested env tok = true
      · simp [runBody, h]
      · simp only [Bool.not_eq_true] at h
        simp [runBody, h, ih ctx]
  | setReqCtx c rest ih => intro ctx; simp [runBody, ih c]
  | awaitTask child rest ihc ihr =>
      intro ctx
      have hc := ihc ctx
      rcases hres : (runBody env e tok child e ctx).result with _ | v | er <;>
        simp [runBody, hres, hc, ihr]
  | awaitForeign o v rest ih => intro ctx; simp [runBody, ih]

/-- C5: for every computation, the first call that sets its cancellation
token stores that token, and every later attempt to override the token is
silently ignored (no error is signaled and the stored token as well as the
rest of the state is unchanged): first write wins, later writes are
no-ops. -/
theorem setCancelToken_first_write_wins (p : PromiseState)
    (t1 t2 : CancellationToken) (h : p.hasCancelTokenOverride = false) :
    (setCancelToken p t1).cancelToken = t1 ∧
    (setCancelToken p t1).hasCancelTokenOverride = true ∧
    setCancelToken (setCancelToken p t1) t2 = setCancelToken p t1 := by
  simp [setCancelToken, h]

theorem setCancelToken_first_write_wins_witness :
    (setCancelToken ({} : PromiseState) (some 1)).cancelToken = some 1 ∧
    (setCancelToken ({} : PromiseState) (some 1)).hasCancelTokenOverride = true ∧
    setCancelToken (setCancelToken ({} : PromiseState) (some 1)) (some 2) =
      setCancelToken ({} : PromiseState) (some 1) :=
  setCancelToken_first_write_wins {} (some 1) (some 2) rfl

/-- C10: setting a computation's cancellation token marks the token as
overridden even when the supplied token is empty: setting the default
token (as start() does) consumes the single token override, so any later
explicit token and the token inherited through await_transform when the
task is awaited from a parent are silently ignored, and the computation
keeps the empty token. -/
theorem setCancelToken_empty_consumes_override (p : PromiseState)
    (h : p.hasCancelTokenOverride = false) (t' : CancellationToken)
    (parent : PromiseState) (b : TaskBody) :
    (setCancelToken p none).hasCancelTokenOverride = true ∧
    (setCancelToken p none).cancelToken = none ∧
    setCancelToken (setCancelToken p none) t' = setCancelToken p none ∧
    (∃ f', taskAwaitTransform parent ⟨some ⟨b, setCancelToken p none⟩⟩ = ⟨some f'⟩ ∧
      f'.body = b ∧ f'.promise.cancelToken = none) := by
  refine ⟨?_, ?_, ?_, ?_⟩
  · simp [setCancelToken, h]
  · simp [setCancelToken, h]
  · simp [setCancelToken, h]
  · refine ⟨_, rfl, rfl, ?_⟩
    simp [taskAwaitTransform, co_withCancellation_Task, co_viaIfAsync_Task, setCancelToken, h]

theorem setCancelToken_empty_consumes_override_witness :
    (setCancelToken ({} : PromiseState) none).hasCancelTokenOverride = true ∧
    (setCancelToken ({} : PromiseState) none).cancelToken = none ∧
    setCancelToken (setCancelToken ({} : PromiseState) none) (some 8) =
      setCancelToken ({} : PromiseState) none ∧
    (∃ f', taskAwaitTransform { executor := some 2, cancelToken := some 3 }
        ⟨some ⟨TaskBody.ret 0, setCancelToken ({} : PromiseState) none⟩⟩ = ⟨some f'⟩ ∧
      f'.body = TaskBody.ret 0 ∧ f'.promise.cancelToken = none) :=
  setCancelToken_empty_consumes_override {} rfl (some 8)
    { executor := some 2, cancelToken := some 3 } (TaskBody.ret 0)

/-- C3: awaiting the safe-point operation when cancellation has been
requested on the computation's token terminates the computation with the
cancelled error written into the result slot instead of continuing past
the safe point; when cancellation has not been requested, the safe point
completes immediately and the computation continues with its state
unchanged. -/
theorem safePoint_cancellation (env : CancelEnv) (p : PromiseState)
    (exec cur ctx : Nat) (tok : CancellationToken) (rest : TaskBody) :
    (isCancellationRequested env p.cancelToken = true →
      do_safe_point env p =
        SafePointStep.finalSuspend { p with result := Try.error Err.cancelled }) ∧
    (isCancellationRequested env p.cancelToken = false →
      do_safe_point env p = SafePointStep.ready) ∧
    (isCancellationRequested env tok = true →
      runBody env exec tok (TaskBody.safePoint rest) cur ctx =
        ⟨Try.error Err.cancelled, cur, ctx⟩) ∧
    (isCancellationRequested env tok = false →
      runBody env exec tok (TaskBody.safePoint rest) cur ctx =
        runBody env exec tok rest cur ctx) := by
  refine ⟨fun h => ?_, fun h => ?_, fun h => ?_, fun h => ?_⟩ <;>
    simp [do_safe_point, runBody, h]

theorem safePoint_cancellation_witness :
    (do_safe_point (fun _ => true) { cancelToken := some 0 } =
      SafePointStep.finalSuspend
        { ({ cancelToken := some 0 } : PromiseState) with
          result := Try.error Err.cancelled }) ∧
    (runBody (fun _ => true) 0 (some 0) (TaskBody.safePoint (TaskBody.ret 7)) 0 0 =
      ⟨Try.error Err.cancelled, 0, 0⟩) ∧
    (runBody (fun _ => false) 0 (some 0) (TaskBody.safePoint (TaskBody.ret 7)) 0 0 =
      runBody (fun _ => false) 0 (some 0) (TaskBody.ret 7) 0 0) :=
  ⟨(safePoint_cancellation (fun _ => true) { cancelToken := some 0 } 0 0 0 (some 0)
      (TaskBody.ret 7)).1 rfl,
   (safePoint_cancellation (fun _ => true) { cancelToken := some 0 } 0 0 0 (some 0)
      (TaskBody.ret 7)).2.2.1 rfl,
   (safePoint_cancellation (fun _ => false) { cancelToken := some 0 } 0 0 0 (some 0)
      (TaskBody.ret 7)).2.2.2 rfl⟩

/-- C2: at a computation's terminal point, if a scope-exit finalizer is
attached, the saved continuation, the async-stack frame, the bound
executor and, when the result holds an error, that error are transferred
to the finalizer and the finalizer is resumed next without the frame being
popped; otherwise the frame is popped and control transfers to the
continuation's error-handling entry point when the result holds an error,
or to the plain continuation when it holds a value. -/
theorem finalAwaiter_dispatch (p : PromiseState) :
    (∀ se e, p.scopeExit = some se → p.result = Try.error e →
      finalAwaiterSuspend p =
        (FinalDispatch.toScopeExit se
          ⟨p.continuation, p.frameId, p.executor, some e⟩, false)) ∧
    (∀ se v, p.scopeExit = some se → p.result = Try.value v →
      finalAwaiterSuspend p =
        (FinalDispatch.toScopeExit se
          ⟨p.continuation, p.frameId, p.executor, none⟩, false)) ∧
    (∀ e, p.scopeExit = none → p.result = Try.error e →
      finalAwaiterSuspend p = (FinalDispatch.toErrorHandle p.continuation e, true)) ∧
    (∀ v, p.scopeExit = none → p.result = Try.value v →
      finalAwaiterSuspend p = (FinalDispatch.toContinuation p.continuation, true)) := by
  refine ⟨fun se e h1 h2 => ?_, fun se v h1 h2 => ?_,
    fun e h1 h2 => ?_, fun v h1 h2 => ?_⟩ <;>
    simp [finalAwaiterSuspend, exceptionOf, h1, h2]

theorem finalAwaiter_dispatch_witness :
    (finalAwaiterSuspend
        { continuation := some 9, frameId := 3, executor := some 1,
          scopeExit := some 4, result := Try.error (Err.failure 7) } =
      (FinalDispatch.toScopeExit 4 ⟨some 9, 3, some 1, some (Err.failure 7)⟩, false)) ∧
    (finalAwaiterSuspend { continuation := some 9, result := Try.error (Err.failure 7) } =
      (FinalDispatch.toErrorHandle (some 9) (Err.failure 7), true)) ∧
    (finalAwaiterSuspend { continuation := some 9, result := Try.value 5 } =
      (FinalDispatch.toContinuation (some 9), true)) :=
  ⟨(finalAwaiter_dispatch
      { continuation := some 9, frameId := 3, executor := some 1,
        scopeExit := some 4, result := Try.error (Err.failure 7) }).1
      4 (Err.failure 7) rfl rfl,
   (finalAwaiter_dispatch
      { continuation := some 9, result := Try.error (Err.failure 7) }).2.2.1
      (Err.failure 7) rfl rfl,
   (finalAwaiter_dispatch { continuation := some 9, result := Try.value 5 }).2.2.2
      5 rfl rfl⟩

/-- C7: when a bound task whose executor is a same-thread
inline-execution-only executor is awaited from within another computation,
the defect is detected in debug builds and reported by logging, not by
crashing; in release builds it is not reported; only in strict builds,
where DCHECK failures abort, awaiting with the concrete inline executor
classes crashes. -/
theorem awaiter_inline_executor_check (k : ExecutorClass)
    (h : isInlineLike k = true) :
    awaiterExecutorCheck true false k = DefectReport.logged ∧
    awaiterExecutorCheck false false k = DefectReport.silent ∧
    awaiterExecutorCheck true true ExecutorClass.inlineExecutor = DefectReport.crash := by
  cases k <;> revert h <;> decide

theorem awaiter_inline_executor_check_witness :
    awaiterExecutorCheck true false ExecutorClass.otherInlineLike = DefectReport.logged ∧
    awaiterExecutorCheck false false ExecutorClass.otherInlineLike = DefectReport.silent ∧
    awaiterExecutorCheck true true ExecutorClass.inlineExecutor = DefectReport.crash :=
  awaiter_inline_executor_check ExecutorClass.otherInlineLike rfl

/-- C6: Task and TaskWithExecutor are move-only single-owner handles: a
move transfers the coroutine frame and leaves the source empty; destroying
an empty (moved-from or consumed) handle does nothing; and destroying a
never-launched handle destroys the underlying coroutine frame without
running the body, any continuation, or any finalizer. -/
theorem task_handles_move_only (t : Task) (b : TaskWithExecutor)
    (f g : TaskFrame) :
    ((Task.moveFrom t).1.coro = t.coro ∧ (Task.moveFrom t).2.coro = none) ∧
    ((TaskWithExecutor.moveFrom b).1.coro = b.coro ∧
      (TaskWithExecutor.moveFrom b).2.coro = none) ∧
    Task.destruct ⟨none⟩ = [] ∧
    TaskWithExecutor.destruct ⟨none⟩ = [] ∧
    (Task.destruct ⟨some f⟩ = [DestroyEvent.frameDestroyed] ∧
      DestroyEvent.bodyRan ∉ Task.destruct ⟨some f⟩ ∧
      DestroyEvent.continuationResumed ∉ Task.destruct ⟨some f⟩ ∧
      DestroyEvent.finalizerResumed ∉ Task.destruct ⟨some f⟩) ∧
    (TaskWithExecutor.destruct ⟨some g⟩ = [DestroyEvent.frameDestroyed] ∧
      DestroyEvent.bodyRan ∉ TaskWithExecutor.destruct ⟨some g⟩ ∧
      DestroyEvent.continuationResumed ∉ TaskWithExecutor.destruct ⟨some g⟩ ∧
      DestroyEvent.finalizerResumed ∉ TaskWithExecutor.destruct ⟨some g⟩) := by
  simp [Task.moveFrom, TaskWithExecutor.moveFrom, Task.destruct,
    TaskWithExecutor.destruct]

/-- C9: binding a task to executor e and then calling unwrap() on the
not-yet-started TaskWithExecutor returns the same underlying computation
as an unbound Task together with the executor e, leaving both the source
task and the bound handle empty: unwrap is the inverse of scheduleOn
before the computation starts running. -/
theorem scheduleOn_unwrap_roundtrip (f : TaskFrame) (e : Nat)
    (h : f.promise.executor = none) :
    (Task.scheduleOn ⟨some f⟩ e).2.coro = none ∧
    ((Task.scheduleOn ⟨some f⟩ e).1).unwrap = ((⟨some f⟩, some e), ⟨none⟩) := by
  obtain ⟨b, p⟩ := f
  obtain ⟨c1, fr, ex, tk, se, ov, r⟩ := p
  simp only at h
  subst h
  simp [Task.scheduleOn, TaskWithExecutor.unwrap]

theorem scheduleOn_unwrap_roundtrip_witness :
    (Task.scheduleOn ⟨some ⟨TaskBody.ret 1, {}⟩⟩ 5).2.coro = none ∧
    ((Task.scheduleOn ⟨some ⟨TaskBody.ret 1, {}⟩⟩ 5).1).unwrap =
      ((⟨some ⟨TaskBody.ret 1, {}⟩⟩, some 5), ⟨none⟩) :=
  scheduleOn_unwrap_roundtrip ⟨TaskBody.ret 1, {}⟩ 5 rfl

/-- C1: for every Task bound to an executor and started with a callback,
the callback is invoked exactly once, with value v when the coroutine body
returns v and with error e when the body raises error e. -/
theorem start_invokes_callback_once (env : CancelEnv) (p : PromiseState)
    (tok : CancellationToken) (ctx e : Nat) (hexec : p.executor = some e) :
    (∀ v, startImplModel env ⟨some ⟨TaskBody.ret v, p⟩⟩ tok ctx = [Try.value v]) ∧
    (∀ err, startImplModel env ⟨some ⟨TaskBody.throwE err, p⟩⟩ tok ctx =
      [Try.error err]) ∧
    (∀ b, (startImplModel env ⟨some ⟨b, p⟩⟩ tok ctx).length = 1) := by
  have hx : (setCancelToken p tok).executor = some e := by
    rw [setCancelToken_executor]; exact hexec
  refine ⟨fun v => ?_, fun err => ?_, fun b => ?_⟩ <;>
    simp [startImplModel, hx, runBody]

theorem start_invokes_callback_once_witness :
    (startImplModel (fun _ => false)
        ⟨some ⟨TaskBody.ret 42, { executor := some 0 }⟩⟩ none 0 = [Try.value 42]) ∧
    (startImplModel (fun _ => false)
        ⟨some ⟨TaskBody.throwE (Err.failure 3), { executor := some 0 }⟩⟩ none 0 =
      [Try.error (Err.failure 3)]) :=
  ⟨(start_invokes_callback_once (fun _ => false) { executor := some 0 }
      none 0 0 rfl).1 42,
   (start_invokes_callback_once (fun _ => false) { executor := some 0 }
      none 0 0 rfl).2.1 (Err.failure 3)⟩

/-- C4: when a Task is awaited from inside another running bound
computation, the awaiting computation's executor handle and cancellation
token are propagated into the awaited computation before it starts running
(the same executor identifier and the same token identifier, not copies
with separate identity), and after the child completes, the awaiting
computation's continuation is resumed via that executor. -/
theorem await_inherits_executor_and_token (env : CancelEnv)
    (parent : PromiseState) (f : TaskFrame)
    (hfresh : f.promise.hasCancelTokenOverride = false)
    (e : Nat) (hexec : parent.executor = some e) :
    (∃ f', taskAwaitTransform parent ⟨some f⟩ = ⟨some f'⟩ ∧
      f'.body = f.body ∧
      f'.promise.executor = parent.executor ∧
      f'.promise.cancelToken = parent.cancelToken) ∧
    (∀ ctx, (runBody env e parent.cancelToken f.body e ctx).exec = e) := by
  constructor
  · refine ⟨_, rfl, rfl, ?_, ?_⟩ <;>
      simp [taskAwaitTransform, co_withCancellation_Task, co_viaIfAsync_Task,
        setCancelToken, hfresh]
  · intro ctx
    exact runBody_exec_eq env e parent.cancelToken f.body ctx

theorem await_inherits_executor_and_token_witness :
    (∃ f', taskAwaitTransform { executor := some 2, cancelToken := some 3 }
        ⟨some ⟨TaskBody.ret 0, {}⟩⟩ = ⟨some f'⟩ ∧
      f'.body = TaskBody.ret 0 ∧
      f'.promise.executor = some 2 ∧
      f'.promise.cancelToken = some 3) ∧
    (∀ ctx, (runBody (fun _ => false) 2 (some 3) (TaskBody.ret 0) 2 ctx).exec = 2) :=
  await_inherits_executor_and_token (fun _ => false)
    { executor := some 2, cancelToken := some 3 } ⟨TaskBody.ret 0, {}⟩ rfl 2 rfl

/-- C8: the inline start saves the current ambient request context before
starting the task inline and restores it when the start call returns, so a
request context installed by the task body does not remain installed in
the caller; the caller's context after the call is exactly the context
before it, while the callback still observes the terminal result. -/
theorem startInline_restores_request_context (env : CancelEnv)
    (p : PromiseState) (tok : CancellationToken) (ctx e : Nat)
    (hexec : p.executor = some e) :
    (∀ b, (startInlineImplModel env ⟨some ⟨b, p⟩⟩ tok ctx).2 = ctx) ∧
    (∀ c v,
      startInlineImplModel env
          ⟨some ⟨TaskBody.setReqCtx c (TaskBody.ret v), p⟩⟩ tok ctx =
        ([Try.value v], ctx) ∧
      (runBody env e (setCancelToken p tok).cancelToken
          (TaskBody.setReqCtx c (TaskBody.ret v)) e ctx).ctx = c) := by
  have hx : (setCancelToken p tok).executor = some e := by
    rw [setCancelToken_executor]; exact hexec
  refine ⟨fun b => ?_, fun c v => ⟨?_, ?_⟩⟩ <;>
    simp [startInlineImplModel, hx, runBody]

theorem startInline_restores_request_context_witness :
    (startInlineImplModel (fun _ => false)
        ⟨some ⟨TaskBody.setReqCtx 99 (TaskBody.ret 1), { executor := some 0 }⟩⟩
        none 10 = ([Try.value 1], 10)) ∧
    ((runBody (fun _ => false) 0
        (setCancelToken { executor := some 0 } none).cancelToken
        (TaskBody.setReqCtx 99 (TaskBody.ret 1)) 0 10).ctx = 99) :=
  (startInline_restores_request_context (fun _ => false) { executor := some 0 }
    none 10 0 rfl).2 99 1
